import Mathlib

/-!
Verification of the Dutch Housing Analytics pipeline (Arashi20/Dutch_Housing_Analytics).

Shallow embedding of the pieces of the pipeline the claims are about:

* the CBS OData client (python/cbs_api_client.py): the retry/backoff logic of
  `_make_request` and the pagination loop of `get_data_paginated`;
* the extractor (python/extract_cbs_housing.py): the keyword-argument contract
  of `CBSAPIClient.__init__` as exercised by
  `extract_woningen_pijplijn_feed_api`, and the retention cleanup
  `cleanup_old_extractions` / `_extract_timestamp`;
* the transformer (python/transform_housing_data.py): the dimension left-joins
  and the derived metrics of step 6 of `transform_doorlooptijden`;
* the statistical analyzer (python/analyze_statistics.py): the rounding applied
  to reported statistics, the eta-squared computation of
  `analyze_regional_anova`, and the Cohen's d guard of `compare_woningtype`.

Numbers are modelled as rationals (reals where a square root is involved);
pandas float division by zero is modelled explicitly by an IEEE-style value
type. Machine-float rounding error is not modelled: the claims under test are
about exact branch structure and algebra, not float precision.
-/

namespace DutchHousing

/-! ### CBS OData client: pagination (cbs_api_client.py, get_data / get_data_paginated) -/

/-- One page request against the server, as `get_data` issues it
(cbs_api_client.py lines 258-290): the server holds `server` rows in a fixed
order; a request carries `$top` only when `top` is truthy (nonzero) and
`$skip` only when `skip` is truthy, so `top = 0` returns everything from
`skip` on. -/
def fetchSlice {α : Type} (server : List α) (top skip : ℕ) : List α :=
  if top = 0 then server.drop skip else (server.drop skip).take top

/-- The `rows_to_fetch` computation at the top of the pagination loop
(cbs_api_client.py lines 331-340): with a truthy `max_rows` the remaining
budget caps the page size and a non-positive budget breaks the loop
(`none`); otherwise the page size is the configured batch size. -/
def rowsToFetch (batch : ℕ) (maxRows : Option ℕ) (total : ℕ) : Option ℕ :=
  match maxRows with
  | some m =>
    if m ≠ 0 then
      let rtf : ℤ := min (batch : ℤ) ((m : ℤ) - (total : ℤ))
      if rtf ≤ 0 then none else some rtf.toNat
    else some batch
  | none => some batch

/-- The body of the `while True` pagination loop of `get_data_paginated`
(cbs_api_client.py lines 330-364), started at offset `skip` with
`total` rows already fetched. Returns the log of page requests issued, as
(rows_to_fetch, offset) pairs in order, and the concatenated data. The loop
breaks on a non-positive remaining budget (before any request), on an empty
page, or on a short page. -/
def getDataPaginatedGo {α : Type} (server : List α) (batch : ℕ) (maxRows : Option ℕ)
    (skip total : ℕ) : List (ℕ × ℕ) × List α :=
  match rowsToFetch batch maxRows total with
  | none => ([], [])
  | some rtf =>
    let b := fetchSlice server rtf skip
    if b.length = 0 then ([(rtf, skip)], [])
    else if b.length < rtf then ([(rtf, skip)], b)
    else
      let r := getDataPaginatedGo server batch maxRows (skip + b.length) (total + b.length)
      ((rtf, skip) :: r.1, b ++ r.2)
termination_by server.length - skip
decreasing_by
  have hlen : (fetchSlice server rtf skip).length ≤ server.length - skip := by
    unfold fetchSlice
    split
    · simp
    · simp only [List.length_take, List.length_drop]
      omega
  simp only [b] at *
  omega

/-- `get_data_paginated` (cbs_api_client.py lines 293-375): run the loop from
offset 0 with nothing fetched; the first component is the request log, the
second the returned table. -/
def get_data_paginated {α : Type} (server : List α) (batch : ℕ)
    (maxRows : Option ℕ) : List (ℕ × ℕ) × List α :=
  getDataPaginatedGo server batch maxRows 0 0

/-! ### CBS OData client: retry policy (cbs_api_client.py, _make_request) -/

/-- Transport outcome of one HTTP attempt: success (any status below 400),
timeout, connection error, or an HTTP error status raised by
raise_for_status. -/
inductive HttpOutcome where
  | success
  | timeout
  | connError
  | httpStatus (code : ℕ)
deriving DecidableEq

/-- The exception `_make_request` lets escape to its caller. -/
inductive RequestError where
  | timeout
  | connError
  | httpStatus (code : ℕ)
deriving DecidableEq

/-- Observable trace of one `_make_request` call: how many HTTP attempts were
issued, the sleeps performed (in seconds, in order), and the final result. -/
structure RequestTrace where
  attempts : ℕ
  waits : List ℚ
  result : Except RequestError Unit

/-- `_make_request` (cbs_api_client.py lines 100-156). `resp i` is the
transport outcome of the attempt with retry_count = i. Timeouts, connection
errors and 5xx statuses retry while retry_count < max_retries after sleeping
base ^ retry_count seconds; 429 sleeps the fixed rate-limit delay and then
retries under the same bound; any other raised HTTP status (4xx other
than 429) is re-raised at once with no sleep. -/
def makeRequest (resp : ℕ → HttpOutcome) (maxRetries : ℕ) (base rateDelay : ℚ)
    (retryCount : ℕ) : RequestTrace :=
  match resp retryCount with
  | .success => ⟨1, [], .ok ()⟩
  | .timeout =>
    if _h : retryCount < maxRetries then
      let t := makeRequest resp maxRetries base rateDelay (retryCount + 1)
      ⟨t.attempts + 1, base ^ retryCount :: t.waits, t.result⟩
    else ⟨1, [], .error .timeout⟩
  | .httpStatus code =>
    if code = 429 then
      if _h : retryCount < maxRetries then
        let t := makeRequest resp maxRetries base rateDelay (retryCount + 1)
        ⟨t.attempts + 1, rateDelay :: t.waits, t.result⟩
      else ⟨1, [rateDelay], .error (.httpStatus code)⟩
    else if 500 ≤ code then
      if _h : retryCount < maxRetries then
        let t := makeRequest resp maxRetries base rateDelay (retryCount + 1)
        ⟨t.attempts + 1, base ^ retryCount :: t.waits, t.result⟩
      else ⟨1, [], .error (.httpStatus code)⟩
    else ⟨1, [], .error (.httpStatus code)⟩
  | .connError =>
    if _h : retryCount < maxRetries then
      let t := makeRequest resp maxRetries base rateDelay (retryCount + 1)
      ⟨t.attempts + 1, base ^ retryCount :: t.waits, t.result⟩
    else ⟨1, [], .error .connError⟩
termination_by maxRetries - retryCount
decreasing_by
  all_goals omega

/-! ### Extractor: the Feed-API client construction (extract_cbs_housing.py) -/

/-- Python call error raised when a function is called with a keyword argument
its signature does not accept. -/
inductive PyCallError where
  | typeError
deriving DecidableEq

/-- The keyword parameters `CBSAPIClient.__init__` accepts
(cbs_api_client.py lines 47-53). -/
def cbsClientInitKeywords : List String :=
  ["base_url", "timeout", "max_retries", "batch_size"]

/-- Calling `CBSAPIClient(...)` with the given keyword arguments: Python
raises TypeError before the constructor body runs when any keyword is not a
parameter of the signature. -/
def callCBSAPIClientInit (kwargs : List String) : Except PyCallError Unit :=
  if ∀ k ∈ kwargs, k ∈ cbsClientInitKeywords then .ok () else .error .typeError

/-- Observable outcome of one `extract_woningen_pijplijn_feed_api` run: the
raw files persisted for the dimension tables, the raw files persisted for the
fact (pipeline) rows, the period filter that was built, and how the call
ended. -/
structure PijplijnExtractOutcome where
  savedDimFiles : List String
  savedFactFiles : List String
  periodFilter : String
  result : Except PyCallError Unit

/-- `extract_woningen_pijplijn_feed_api` (extract_cbs_housing.py lines
178-281): step 1 fetches and saves every dimension table; step 2 builds the
period filter and then constructs `CBSAPIClient(api_type='feed')`; only if
that construction succeeds are the fact rows fetched and saved. -/
def extract_woningen_pijplijn_feed_api (startYear endYear : ℕ)
    (dimNames : List String) : PijplijnExtractOutcome :=
  let dimFiles := dimNames.map (fun d => "dim_" ++ d)
  let flt := "Perioden ge " ++ toString startYear ++ "MM01 and Perioden le "
      ++ toString endYear ++ "MM12"
  match callCBSAPIClientInit ["api_type"] with
  | .error e => ⟨dimFiles, [], flt, .error e⟩
  | .ok _ => ⟨dimFiles, ["fact_woningen_pijplijn"], flt, .ok ()⟩

/-! ### Extractor: retention cleanup (extract_cbs_housing.py lines 332-450) -/

/-- A file in the raw data directory: its stem (name without the final
extension) as a character list, and its extension. -/
structure RawFile where
  stem : List Char
  ext : String
deriving DecidableEq

/-- Whether cleanup considers the file at all: only .csv and .parquet files
participate (extract_cbs_housing.py lines 366-368). -/
def isDataFile (f : RawFile) : Bool :=
  decide (f.ext = ".csv" ∨ f.ext = ".parquet")

/-- Python str.split applied with separator underscore. -/
def splitUnderscore : List Char → List (List Char)
  | [] => [[]]
  | c :: cs =>
    match splitUnderscore cs with
    | [] => [[]]
    | p :: ps => if c = '_' then [] :: p :: ps else (c :: p) :: ps

/-- The scan of `_extract_timestamp` (extract_cbs_housing.py lines 442-450):
find the first part of 8 digits immediately followed by a part of 6 digits
and return them joined by an underscore; a qualifying 8-digit part whose
successor does not qualify does not stop the scan. -/
def timestampParts : List (List Char) → Option (List Char)
  | [] => none
  | p :: rest =>
    if p.length = 8 && p.all Char.isDigit then
      match rest with
      | q :: _ =>
        if q.length = 6 && q.all Char.isDigit then some (p ++ '_' :: q)
        else timestampParts rest
      | [] => none
    else timestampParts rest

/-- `_extract_timestamp` (extract_cbs_housing.py lines 426-450). -/
def extractTimestamp (f : RawFile) : Option (List Char) :=
  timestampParts (splitUnderscore f.stem)

/-- The distinct extraction timestamps found among the data files — the keys
of the `files_by_timestamp` dictionary (extract_cbs_housing.py lines
364-378). -/
def extractionTimestamps (files : List RawFile) : List (List Char) :=
  ((files.filter isDataFile).filterMap extractTimestamp).dedup

/-- The timestamps sorted newest first (extract_cbs_housing.py line 387,
`sorted(..., reverse=True)`); the keys are distinct, so the descending sort
is the reverse of the ascending one. -/
def sortedTimestampsDesc (files : List RawFile) : List (List Char) :=
  (List.insertionSort (· ≤ ·) (extractionTimestamps files)).reverse

/-- The set of files `cleanup_old_extractions` deletes
(extract_cbs_housing.py lines 394-417): nothing when at most `keepLastN`
distinct timestamps exist; otherwise every data file whose timestamp is one
of the timestamps after the newest `keepLastN`. -/
def deletedFiles (files : List RawFile) (keepLastN : ℕ) : List RawFile :=
  if (sortedTimestampsDesc files).length ≤ keepLastN then []
  else
    (files.filter isDataFile).filter (fun f =>
      match extractTimestamp f with
      | some ts => decide (ts ∈ (sortedTimestampsDesc files).drop keepLastN)
      | none => false)

/-! ### Transformer: dimension joins (transform_housing_data.py lines 181-233) -/

/-- Pandas left-merge of the fact table with a dimension's (Key, Title)
pairs, as each of the four joins of `transform_doorlooptijden` performs it:
a fact row is `(payload, code)` with `code` its dimension-code column; each
fact row is paired with every dimension row whose Key equals its code, and a
fact row without a match is kept once with a missing label. -/
def mergeDimLeft {α : Type} (fact : List (α × String))
    (dim : List (String × String)) : List ((α × String) × Option String) :=
  fact.flatMap (fun r =>
    match dim.filter (fun p => p.1 = r.2) with
    | [] => [(r, none)]
    | ms => ms.map (fun p => (r, some p.2)))

/-! ### Transformer: derived metrics (transform_housing_data.py lines 308-330) -/

/-- Value of a pandas float64 cell: a finite rational, an infinity, or NaN. -/
inductive FloatV where
  | fin (q : ℚ)
  | posInf
  | negInf
  | nan
deriving DecidableEq

/-- Whether the cell holds a finite number. -/
def FloatV.isFinite : FloatV → Bool
  | .fin _ => true
  | _ => false

/-- Division of two finite pandas float64 values: IEEE division, so a zero
denominator gives a signed infinity (NaN when the numerator is also zero),
not an error. -/
def floatDiv (a b : ℚ) : FloatV :=
  if b ≠ 0 then .fin (a / b)
  else if 0 < a then .posInf
  else if a < 0 then .negInf
  else .nan

/-- Doorlooptijd_IQR = Doorlooptijd_P75 - Doorlooptijd_P25
(transform_housing_data.py line 314). -/
def doorlooptijd_IQR (p25 p75 : ℚ) : ℚ := p75 - p25

/-- Hoge_Variabiliteit = (Doorlooptijd_IQR > 10).astype(int)
(transform_housing_data.py line 323): 1 when the IQR strictly exceeds 10
months, else 0. -/
def hoge_Variabiliteit (p25 p75 : ℚ) : ℕ :=
  if 10 < doorlooptijd_IQR p25 p75 then 1 else 0

/-- Doorlooptijd_CV = Doorlooptijd_IQR / Doorlooptijd_Mediaan
(transform_housing_data.py line 329), with pandas float division. -/
def doorlooptijd_CV (p25 p75 med : ℚ) : FloatV :=
  floatDiv (doorlooptijd_IQR p25 p75) med

/-- The measures of one fact row entering step 6 of
`transform_doorlooptijden`. -/
structure DoorloopRow where
  p10 : ℚ
  p25 : ℚ
  mediaan : ℚ
  p75 : ℚ
  p90 : ℚ
deriving DecidableEq

/-- One row after step 6: the original measures plus the derived columns. -/
structure DoorloopDerivedRow where
  base : DoorloopRow
  iqr : ℚ
  p10p90Range : ℚ
  hogeVar : ℕ
  cv : FloatV
deriving DecidableEq

/-- The derived columns of step 6 for one row (transform_housing_data.py
lines 308-330): each is a function of that row's own measures only. -/
def addDerivedMetrics (r : DoorloopRow) : DoorloopDerivedRow :=
  ⟨r, doorlooptijd_IQR r.p25 r.p75, r.p90 - r.p10,
    hoge_Variabiliteit r.p25 r.p75, doorlooptijd_CV r.p25 r.p75 r.mediaan⟩

/-- Step 6 over the whole fact table: column assignments keep every row. -/
def createDerivedMetrics (rows : List DoorloopRow) : List DoorloopDerivedRow :=
  rows.map addDerivedMetrics

/-! ### Statistical analyzer: rounding of reported statistics -/

/-- Round half to even on a scaled value, as Python round resolves ties. -/
def roundHalfEven (x : ℚ) : ℤ :=
  if x - ⌊x⌋ < 1/2 then ⌊x⌋
  else if 1/2 < x - ⌊x⌋ then ⌊x⌋ + 1
  else if ⌊x⌋ % 2 = 0 then ⌊x⌋ else ⌊x⌋ + 1

/-- Python round(x, nd): round half to even at nd decimal places. -/
def pyRound (nd : ℕ) (x : ℚ) : ℚ :=
  (roundHalfEven (x * 10 ^ nd) : ℚ) / 10 ^ nd

/-- What it means for a reported value to be `original` rounded to nd
decimal places: it is an integer multiple of 10 ^ (-nd) and within half of
that step of the original. -/
def roundedTo (nd : ℕ) (reported original : ℚ) : Prop :=
  (∃ k : ℤ, reported = (k : ℚ) / 10 ^ nd) ∧
    |reported - original| ≤ 1 / (2 * 10 ^ nd)

/-- The numeric fields `analyze_temporal_trend` writes to
1_temporal_regression.csv (analyze_statistics.py lines 129-159). -/
structure TemporalRegressionOut where
  slope : ℚ
  intercept : ℚ
  r_squared : ℚ
  p_value : ℚ
deriving DecidableEq

/-- analyze_temporal_trend record values: slope, intercept and r_squared are
round(..., 4); p_value is round(..., 6). -/
def analyze_temporal_trend_out (slope intercept r2 p : ℚ) : TemporalRegressionOut :=
  ⟨pyRound 4 slope, pyRound 4 intercept, pyRound 4 r2, pyRound 6 p⟩

/-- The numeric fields `analyze_regional_anova` writes to
2_regional_anova.csv (analyze_statistics.py lines 205-212). -/
structure RegionalAnovaOut where
  f_statistic : ℚ
  p_value : ℚ
  eta_squared : ℚ
deriving DecidableEq

/-- analyze_regional_anova record values: f_statistic and eta_squared are
round(..., 4); p_value is round(..., 6). -/
def analyze_regional_anova_out (f p eta : ℚ) : RegionalAnovaOut :=
  ⟨pyRound 4 f, pyRound 6 p, pyRound 4 eta⟩

/-- The numeric fields `compare_woningtype` writes to 4_woningtype_ttest.csv
(analyze_statistics.py lines 389-400). -/
structure WoningtypeTTestOut where
  mean_1 : ℚ
  mean_2 : ℚ
  mean_diff : ℚ
  t_statistic : ℚ
  p_value : ℚ
  cohens_d : ℚ
deriving DecidableEq

/-- compare_woningtype record values: means, difference, t statistic and
Cohen's d are round(..., 4); p_value is round(..., 6). -/
def compare_woningtype_out (m1 m2 t p d : ℚ) : WoningtypeTTestOut :=
  ⟨pyRound 4 m1, pyRound 4 m2, pyRound 4 (m1 - m2), pyRound 4 t,
    pyRound 6 p, pyRound 4 d⟩

/-- The numeric fields of one correlation record
(analyze_statistics.py lines 431-439): r is round(..., 4), p round(..., 6). -/
structure CorrelationOut where
  correlation : ℚ
  p_value : ℚ
deriving DecidableEq

/-- One correlation record's rounded values. -/
def correlation_out (r p : ℚ) : CorrelationOut :=
  ⟨pyRound 4 r, pyRound 6 p⟩

/-- One decomposition output row: observed, trend, seasonal, residual. -/
structure DecompositionRow where
  observed : ℚ
  trend : ℚ
  seasonal : ℚ
  residual : ℚ
deriving DecidableEq

/-- Quarterly decomposition row (analyze_statistics.py lines 550-555): all
components round(..., 4). -/
def decompose_quarterly_row (o t s r : ℚ) : DecompositionRow :=
  ⟨pyRound 4 o, pyRound 4 t, pyRound 4 s, pyRound 4 r⟩

/-- Monthly decomposition row (analyze_statistics.py lines 595-600): all
components round(..., 2). -/
def decompose_monthly_row (o t s r : ℚ) : DecompositionRow :=
  ⟨pyRound 2 o, pyRound 2 t, pyRound 2 s, pyRound 2 r⟩

/-! ### Statistical analyzer: regional ANOVA grouping and eta-squared
(analyze_statistics.py lines 162-215) -/

/-- Mean of a list of rationals (pandas .mean()). -/
def meanQ (xs : List ℚ) : ℚ := xs.sum / xs.length

/-- The distinct region keys in groupby order (pandas sorts group keys
ascending). A cleaned row is (region, value). -/
def regionKeys {κ : Type} [LinearOrder κ] (rows : List (κ × ℚ)) : List κ :=
  List.insertionSort (· ≤ ·) (rows.map Prod.fst).dedup

/-- The measure values of one region's group. -/
def regionValues {κ : Type} [LinearOrder κ] (rows : List (κ × ℚ)) (k : κ) : List ℚ :=
  (rows.filter (fun r => r.1 = k)).map Prod.snd

/-- The groups handed to the one-way ANOVA (analyze_statistics.py lines
177-181): one list per region, keeping only regions with at least 2
observations. -/
def anovaGroups {κ : Type} [LinearOrder κ] (rows : List (κ × ℚ)) : List (List ℚ) :=
  ((regionKeys rows).map (regionValues rows)).filter (fun g => 2 ≤ g.length)

/-- SS_total over the cleaned rows (analyze_statistics.py lines 190-191):
sum of squared deviations of every value from the grand mean. -/
def ssTotal {κ : Type} [LinearOrder κ] (rows : List (κ × ℚ)) : ℚ :=
  ((rows.map Prod.snd).map (fun v => (v - meanQ (rows.map Prod.snd)) ^ 2)).sum

/-- SS_between over the cleaned rows (analyze_statistics.py lines 192-194):
per-region count times squared deviation of the group mean from the grand
mean, summed over every region of the cleaned rows. -/
def ssBetween {κ : Type} [LinearOrder κ] (rows : List (κ × ℚ)) : ℚ :=
  ((regionKeys rows).map (fun k =>
    ((regionValues rows k).length : ℚ) *
      (meanQ (regionValues rows k) - meanQ (rows.map Prod.snd)) ^ 2)).sum

/-- eta_squared as `analyze_regional_anova` computes it
(analyze_statistics.py line 195): SS_between / SS_total over all cleaned
rows, 0 when SS_total is not positive. -/
def etaSquared {κ : Type} [LinearOrder κ] (rows : List (κ × ℚ)) : ℚ :=
  if 0 < ssTotal rows then ssBetween rows / ssTotal rows else 0

/-- The eta-squared the claim describes: the same formula, but computed over
the grouped ANOVA input only, i.e. after dropping rows of regions with fewer
than 2 observations. -/
def etaSquaredOnAnovaInput {κ : Type} [LinearOrder κ] (rows : List (κ × ℚ)) : ℚ :=
  etaSquared (rows.filter (fun r => 2 ≤ (regionValues rows r.1).length))

/-! ### Statistical analyzer: Cohen's d guard (analyze_statistics.py lines 360-368) -/

/-- Mean of a list of reals (numpy .mean()). -/
noncomputable def meanR (xs : List ℝ) : ℝ := xs.sum / xs.length

/-- Sample variance with ddof = 1, the square of numpy std(ddof=1). -/
noncomputable def sampleVar (xs : List ℝ) : ℝ :=
  ((xs.map (fun x => (x - meanR xs) ^ 2)).sum) / ((xs.length : ℝ) - 1)

/-- pooled_std of `compare_woningtype` (analyze_statistics.py lines
365-367): the square root of the mean of the two sample variances. -/
noncomputable def pooledStd (xs ys : List ℝ) : ℝ :=
  Real.sqrt ((sampleVar xs + sampleVar ys) / 2)

/-- cohens_d of `compare_woningtype` (analyze_statistics.py line 368):
mean difference over pooled std when the pooled std is positive, else
exactly 0.0. -/
noncomputable def cohensD (xs ys : List ℝ) : ℝ :=
  if 0 < pooledStd xs ys then (meanR xs - meanR ys) / pooledStd xs ys else 0

/-! ## Theorems -/

/-! ### C2: the Feed-API extraction always raises TypeError -/

/-- C2: every call to extract_woningen_pijplijn_feed_api fails: after the
dimension tables are fetched and saved it constructs
CBSAPIClient(api_type='feed'), but the CBSAPIClient signature accepts no
api_type keyword, so for every input the call raises a TypeError and no fact
rows of the pipeline dataset are persisted; only the dimension files were
saved. -/
theorem c2_feed_api_type_error (startYear endYear : ℕ) (dimNames : List String) :
    (extract_woningen_pijplijn_feed_api startYear endYear dimNames).result
        = .error .typeError
      ∧ (extract_woningen_pijplijn_feed_api startYear endYear dimNames).savedFactFiles = []
      ∧ (extract_woningen_pijplijn_feed_api startYear endYear dimNames).savedDimFiles
        = dimNames.map (fun d => "dim_" ++ d) := by
  have hkw : callCBSAPIClientInit ["api_type"] = .error .typeError := by
    unfold callCBSAPIClientInit cbsClientInitKeywords
    rw [if_neg (by decide)]
  unfold extract_woningen_pijplijn_feed_api
  rw [hkw]
  exact ⟨rfl, rfl, rfl⟩

/-! ### C4: derived metrics at P25 = 5, P75 = 15, Median = 10 -/

/-- C4 counterexample: the claim asserts the high-variability flag is 1 for
a row with Doorlooptijd_P25 = 5 and Doorlooptijd_P75 = 15 (IQR = 10), but
the code computes (IQR > 10).astype(int), which is 0 there since the
threshold is exclusive. -/
theorem c4_flag_counterexample :
    hoge_Variabiliteit 5 15 = 0 ∧ ¬ hoge_Variabiliteit 5 15 = 1 := by
  constructor <;> norm_num [hoge_Variabiliteit, doorlooptijd_IQR]

/-- C4 (amended): the step 6 derived metrics are pure row-wise functions; at
P25 = 5, P75 = 15, Median = 10 they give IQR = 10, CV = 1.0 and
Hoge_Variabiliteit = 0 (not 1), the threshold 10 being exclusive: the flag
is 1 exactly when IQR strictly exceeds 10. -/
theorem c4_derived_metrics_amended :
    doorlooptijd_IQR 5 15 = 10
      ∧ doorlooptijd_CV 5 15 10 = .fin 1
      ∧ hoge_Variabiliteit 5 15 = 0
      ∧ ∀ p25 p75 : ℚ,
          (hoge_Variabiliteit p25 p75 = 1 ↔ 10 < doorlooptijd_IQR p25 p75) := by
  refine ⟨by norm_num [doorlooptijd_IQR], ?_, ?_, ?_⟩
  · norm_num [doorlooptijd_CV, floatDiv, doorlooptijd_IQR]
  · norm_num [hoge_Variabiliteit, doorlooptijd_IQR]
  · intro p25 p75
    by_cases h : 10 < doorlooptijd_IQR p25 p75 <;> simp [hoge_Variabiliteit, h]

/-! ### C10: the CV has no zero guard -/

/-- C10: Doorlooptijd_CV is Doorlooptijd_IQR / Doorlooptijd_Mediaan with no
zero guard: every row keeps its place in the processed output (the column
assignments of step 6 drop no row), and a row whose median is 0 gets a
non-finite CV (an infinity, or NaN when the IQR is also 0) rather than an
error or a rejected row. -/
theorem c10_cv_zero_median (rows : List DoorloopRow) :
    (createDerivedMetrics rows).length = rows.length
      ∧ (∀ r ∈ rows, addDerivedMetrics r ∈ createDerivedMetrics rows)
      ∧ ∀ r ∈ rows, r.mediaan = 0 →
          (addDerivedMetrics r).cv.isFinite = false := by
  refine ⟨by simp [createDerivedMetrics], fun r hr => List.mem_map_of_mem _ hr, ?_⟩
  intro r _ hmed
  simp only [addDerivedMetrics, doorlooptijd_CV, floatDiv, hmed]
  split_ifs <;> simp_all [FloatV.isFinite]

/-! ### C6: rounding of the reported statistics -/

/-- Round half to even moves the scaled value by at most one half. -/
lemma abs_roundHalfEven_sub_le (x : ℚ) : |(roundHalfEven x : ℚ) - x| ≤ 1/2 := by
  have h0 : (⌊x⌋ : ℚ) ≤ x := Int.floor_le x
  have h1 : x < ⌊x⌋ + 1 := Int.lt_floor_add_one x
  unfold roundHalfEven
  split_ifs <;> push_cast <;> rw [abs_le] <;> constructor <;> linarith

/-- pyRound nd produces a value rounded to nd decimal places in the sense of
`roundedTo`. -/
lemma pyRound_roundedTo (nd : ℕ) (x : ℚ) : roundedTo nd (pyRound nd x) x := by
  constructor
  · exact ⟨roundHalfEven (x * 10 ^ nd), rfl⟩
  · have h := abs_roundHalfEven_sub_le (x * 10 ^ nd)
    have hp : (0:ℚ) < 10 ^ nd := by positivity
    unfold pyRound
    have hrw : (roundHalfEven (x * 10 ^ nd) : ℚ) / 10 ^ nd - x
        = ((roundHalfEven (x * 10 ^ nd) : ℚ) - x * 10 ^ nd) / 10 ^ nd := by
      field_simp
      ring
    rw [hrw, abs_div, abs_of_pos hp]
    calc |(roundHalfEven (x * 10 ^ nd) : ℚ) - x * 10 ^ nd| / 10 ^ nd
        ≤ (1/2) / 10 ^ nd := by gcongr
      _ = 1 / (2 * 10 ^ nd) := by ring

/-- C6 counterexample: the claim says p-values are rounded to exactly 4
decimal places before being written, but analyze_temporal_trend writes
round(p_value, 6): at p = 0.1234567 the written value is 0.123457, which is
not the 4-decimal rounding 0.1235. -/
theorem c6_p_value_rounding_counterexample :
    (analyze_temporal_trend_out 0 0 0 (1234567/10000000)).p_value = 123457/1000000
      ∧ (analyze_temporal_trend_out 0 0 0 (1234567/10000000)).p_value
        ≠ pyRound 4 (1234567/10000000) := by
  have h6 : pyRound 6 (1234567/10000000 : ℚ) = 123457/1000000 := by
    unfold pyRound roundHalfEven
    norm_num
  have h4 : pyRound 4 (1234567/10000000 : ℚ) = 1235/10000 := by
    unfold pyRound roundHalfEven
    norm_num
  refine ⟨h6, ?_⟩
  rw [show (analyze_temporal_trend_out 0 0 0 (1234567/10000000)).p_value
    = pyRound 6 (1234567/10000000 : ℚ) from rfl, h6, h4]
  norm_num

/-- C6 (amended): slope, intercept, R², F-statistic, eta-squared,
t-statistic, Cohen's d, correlations and the quarterly decomposition
components are rounded to 4 decimal places before being written, the
monthly decomposition components to 2, and every p-value to 6 (not 4):
each reported field is an integer multiple of the corresponding decimal
step and within half a step of the unrounded statistic. -/
theorem c6_rounding_amended (s i r2 p : ℚ) :
    (roundedTo 4 (analyze_temporal_trend_out s i r2 p).slope s
      ∧ roundedTo 4 (analyze_temporal_trend_out s i r2 p).intercept i
      ∧ roundedTo 4 (analyze_temporal_trend_out s i r2 p).r_squared r2
      ∧ roundedTo 6 (analyze_temporal_trend_out s i r2 p).p_value p)
    ∧ (roundedTo 4 (analyze_regional_anova_out s p i).f_statistic s
      ∧ roundedTo 6 (analyze_regional_anova_out s p i).p_value p
      ∧ roundedTo 4 (analyze_regional_anova_out s p i).eta_squared i)
    ∧ (roundedTo 4 (compare_woningtype_out s i r2 p r2).mean_1 s
      ∧ roundedTo 4 (compare_woningtype_out s i r2 p r2).mean_2 i
      ∧ roundedTo 4 (compare_woningtype_out s i r2 p r2).mean_diff (s - i)
      ∧ roundedTo 4 (compare_woningtype_out s i r2 p r2).t_statistic r2
      ∧ roundedTo 6 (compare_woningtype_out s i r2 p r2).p_value p
      ∧ roundedTo 4 (compare_woningtype_out s i r2 p r2).cohens_d r2)
    ∧ (roundedTo 4 (correlation_out r2 p).correlation r2
      ∧ roundedTo 6 (correlation_out r2 p).p_value p)
    ∧ (roundedTo 4 (decompose_quarterly_row s i r2 p).observed s
      ∧ roundedTo 4 (decompose_quarterly_row s i r2 p).trend i
      ∧ roundedTo 4 (decompose_quarterly_row s i r2 p).seasonal r2
      ∧ roundedTo 4 (decompose_quarterly_row s i r2 p).residual p)
    ∧ (roundedTo 2 (decompose_monthly_row s i r2 p).observed s
      ∧ roundedTo 2 (decompose_monthly_row s i r2 p).trend i
      ∧ roundedTo 2 (decompose_monthly_row s i r2 p).seasonal r2
      ∧ roundedTo 2 (decompose_monthly_row s i r2 p).residual p) :=
  ⟨⟨pyRound_roundedTo 4 s, pyRound_roundedTo 4 i, pyRound_roundedTo 4 r2,
      pyRound_roundedTo 6 p⟩,
    ⟨pyRound_roundedTo 4 s, pyRound_roundedTo 6 p, pyRound_roundedTo 4 i⟩,
    ⟨pyRound_roundedTo 4 s, pyRound_roundedTo 4 i, pyRound_roundedTo 4 (s - i),
      pyRound_roundedTo 4 r2, pyRound_roundedTo 6 p, pyRound_roundedTo 4 r2⟩,
    ⟨pyRound_roundedTo 4 r2, pyRound_roundedTo 6 p⟩,
    ⟨pyRound_roundedTo 4 s, pyRound_roundedTo 4 i, pyRound_roundedTo 4 r2,
      pyRound_roundedTo 4 p⟩,
    ⟨pyRound_roundedTo 2 s, pyRound_roundedTo 2 i, pyRound_roundedTo 2 r2,
      pyRound_roundedTo 2 p⟩⟩

/-! ### C3: dimension left-joins preserve rows and label matches -/

/-- With unique keys, filtering a dimension for one code gives at most the
first match. -/
lemma filter_key_eq_find_toList (dim : List (String × String))
    (hnd : (dim.map Prod.fst).Nodup) (c : String) :
    dim.filter (fun p => p.1 = c) = (dim.find? (fun p => p.1 = c)).toList := by
  induction dim with
  | nil => rfl
  | cons hd tl ih =>
    simp only [List.map_cons, List.nodup_cons] at hnd
    by_cases h : hd.1 = c
    · have htl : tl.filter (fun p => p.1 = c) = [] := by
        rw [List.filter_eq_nil_iff]
        intro p hp
        simp only [decide_eq_true_eq]
        intro hpe
        exact hnd.1 (by rw [← h] at hpe; exact hpe ▸ List.mem_map_of_mem Prod.fst hp)
      simp [List.filter_cons, List.find?_cons, h, htl]
    · simp [List.filter_cons, List.find?_cons, h, ih hnd.2]

/-- With unique keys, the pandas left-merge is exactly a per-row lookup. -/
lemma mergeDimLeft_eq_map {α : Type} (fact : List (α × String))
    (dim : List (String × String)) (hnd : (dim.map Prod.fst).Nodup) :
    mergeDimLeft fact dim
      = fact.map (fun r => (r, (dim.find? (fun p => p.1 = r.2)).map Prod.snd)) := by
  unfold mergeDimLeft
  induction fact with
  | nil => rfl
  | cons r tl ih =>
    rw [List.flatMap_cons, List.map_cons, ← ih]
    rw [filter_key_eq_find_toList dim hnd r.2]
    rcases hfind : dim.find? (fun p => p.1 = r.2) with _ | p
    · rw [hfind]
      simp
    · rw [hfind]
      simp

/-- C3: for every fact table and every non-empty dimension table whose Key
column is unique, the left-join gives every fact row whose code occurs among
the dimension keys a non-missing label, gives every fact row whose code is
absent a missing label (no error is raised: the result is total), and the
number of fact rows is unchanged. -/
theorem c3_dimension_left_join {α : Type} (fact : List (α × String))
    (dim : List (String × String)) (hnd : (dim.map Prod.fst).Nodup)
    (hne : dim ≠ []) :
    (mergeDimLeft fact dim).length = fact.length
      ∧ (∀ r ∈ fact, r.2 ∈ dim.map Prod.fst →
          ∃ t, (r, some t) ∈ mergeDimLeft fact dim)
      ∧ (∀ r ∈ fact, r.2 ∉ dim.map Prod.fst →
          (r, none) ∈ mergeDimLeft fact dim) := by
  rw [mergeDimLeft_eq_map fact dim hnd]
  refine ⟨by simp, ?_, ?_⟩
  · intro r hr hmem
    obtain ⟨p, hp, hpe⟩ := List.mem_map.mp hmem
    have hsome : (dim.find? (fun p => p.1 = r.2)).isSome := by
      rw [List.find?_isSome]
      exact ⟨p, hp, by simp [hpe]⟩
    obtain ⟨q, hq⟩ := Option.isSome_iff_exists.mp hsome
    refine ⟨q.2, ?_⟩
    have hmm := List.mem_map_of_mem
      (fun r => (r, (dim.find? (fun p => p.1 = r.2)).map Prod.snd)) hr
    simpa [hq] using hmm
  · intro r hr hnmem
    have hnone : dim.find? (fun p => p.1 = r.2) = none := by
      rw [List.find?_eq_none]
      intro p hp
      simp only [decide_eq_true_eq]
      intro hpe
      exact hnmem (hpe ▸ List.mem_map_of_mem Prod.fst hp)
    have hmm := List.mem_map_of_mem
      (fun r => (r, (dim.find? (fun p => p.1 = r.2)).map Prod.snd)) hr
    simpa [hnone] using hmm

/-- C3 witness: a concrete fact table of two rows and a dimension of two
unique keys, one code matching and one not. -/
theorem c3_dimension_left_join_witness :
    (mergeDimLeft [((0:ℕ), "A"), ((1:ℕ), "Z")]
        [("A", "Amsterdam"), ("B", "Breda")]).length
        = ([((0:ℕ), "A"), ((1:ℕ), "Z")] : List (ℕ × String)).length
      ∧ (∀ r ∈ ([((0:ℕ), "A"), ((1:ℕ), "Z")] : List (ℕ × String)),
          r.2 ∈ ([("A", "Amsterdam"), ("B", "Breda")] : List (String × String)).map Prod.fst →
          ∃ t, (r, some t) ∈ mergeDimLeft [((0:ℕ), "A"), ((1:ℕ), "Z")]
            [("A", "Amsterdam"), ("B", "Breda")])
      ∧ (∀ r ∈ ([((0:ℕ), "A"), ((1:ℕ), "Z")] : List (ℕ × String)),
          r.2 ∉ ([("A", "Amsterdam"), ("B", "Breda")] : List (String × String)).map Prod.fst →
          (r, none) ∈ mergeDimLeft [((0:ℕ), "A"), ((1:ℕ), "Z")]
            [("A", "Amsterdam"), ("B", "Breda")]) :=
  c3_dimension_left_join [((0:ℕ), "A"), ((1:ℕ), "Z")]
    [("A", "Amsterdam"), ("B", "Breda")] (by decide) (by decide)

/-! ### C8: the reported eta-squared is computed over all cleaned rows -/

/-- C8 counterexample: with regions 0 = {1, 3}, 1 = {5, 7} and the singleton
region 2 = {10}, region 2 is excluded from the ANOVA groups, yet the
reported eta-squared (56/61, computed over all five rows) differs from
SS-between/SS-total over the grouped input (4/5), so the claim that the
reported eta-squared is computed over the grouped input fails. -/
theorem c8_eta_squared_counterexample :
    etaSquared [((0:ℕ), (1:ℚ)), (0, 3), (1, 5), (1, 7), (2, 10)] = 56/61
      ∧ etaSquaredOnAnovaInput [((0:ℕ), (1:ℚ)), (0, 3), (1, 5), (1, 7), (2, 10)] = 4/5
      ∧ (56/61 : ℚ) ≠ 4/5 := by
  have hk : regionKeys [((0:ℕ), (1:ℚ)), (0, 3), (1, 5), (1, 7), (2, 10)] = [0, 1, 2] := by
    decide
  constructor
  · unfold etaSquared ssTotal ssBetween
    rw [hk]
    norm_num [meanQ, regionValues, List.filter]
  constructor
  · unfold etaSquaredOnAnovaInput
    have hfl : ([((0:ℕ), (1:ℚ)), (0, 3), (1, 5), (1, 7), (2, 10)]).filter
        (fun r => 2 ≤ (regionValues [((0:ℕ), (1:ℚ)), (0, 3), (1, 5), (1, 7), (2, 10)] r.1).length)
        = [((0:ℕ), (1:ℚ)), (0, 3), (1, 5), (1, 7)] := by
      decide
    rw [hfl]
    have hk2 : regionKeys [((0:ℕ), (1:ℚ)), (0, 3), (1, 5), (1, 7)] = [0, 1] := by
      decide
    unfold etaSquared ssTotal ssBetween
    rw [hk2]
    norm_num [meanQ, regionValues, List.filter]
  · norm_num

/-- C8 (amended): regions with fewer than 2 observations are excluded from
the grouped ANOVA input, but the reported eta-squared is SS-between divided
by SS-total computed over ALL cleaned rows, singleton regions included
(0 when SS-total is not positive), which can differ from the same formula
over the grouped input. -/
theorem c8_regional_anova_amended {κ : Type} [LinearOrder κ] (rows : List (κ × ℚ)) :
    (∀ g ∈ anovaGroups rows, 2 ≤ g.length)
      ∧ (0 < ssTotal rows → etaSquared rows * ssTotal rows = ssBetween rows) := by
  constructor
  · intro g hg
    have h := (List.mem_filter.mp hg).2
    simpa using h
  · intro h
    unfold etaSquared
    rw [if_pos h]
    field_simp

/-! ### C5: zero within-group variance gives Cohen's d = 0, not a large value -/

/-- The mean of a two-element constant sample. -/
lemma meanR_pair (a : ℝ) : meanR [a, a] = a := by
  simp [meanR]

/-- The ddof = 1 sample variance of a two-element constant sample is 0. -/
lemma sampleVar_pair (a : ℝ) : sampleVar [a, a] = 0 := by
  simp [sampleVar, meanR_pair]

/-- A zero pooled standard deviation takes the guard branch: d = 0. -/
lemma cohensD_eq_zero_of_pooledStd_eq_zero (xs ys : List ℝ)
    (h : pooledStd xs ys = 0) : cohensD xs ys = 0 := by
  unfold cohensD
  rw [h]
  simp

/-- Zero sample variances give a zero pooled standard deviation. -/
lemma pooledStd_eq_zero (xs ys : List ℝ) (hx : sampleVar xs = 0)
    (hy : sampleVar ys = 0) : pooledStd xs ys = 0 := by
  unfold pooledStd
  rw [hx, hy]
  simp

/-- C5 counterexample: the groups [5, 5] and [8, 8] have sizes 2, zero
variance within each group and mean difference -3 ≠ 0, yet the reported
Cohen's d is exactly 0 (the pooled-std guard), not a very large value. -/
theorem c5_cohens_d_counterexample :
    cohensD [5, 5] [8, 8] = 0 ∧ meanR [5, 5] - meanR [8, 8] = -3 := by
  constructor
  · exact cohensD_eq_zero_of_pooledStd_eq_zero _ _
      (pooledStd_eq_zero _ _ (sampleVar_pair 5) (sampleVar_pair 8))
  · rw [meanR_pair, meanR_pair]
    norm_num

/-- C5 (amended): for two groups each of size at least 2 with zero variance
within each group, compare_woningtype reports Cohen's d exactly 0 whatever
the mean difference: pooled_std is 0 and the guard `if pooled_std > 0`
returns 0.0 instead of dividing. -/
theorem c5_zero_variance_cohens_d_amended (xs ys : List ℝ)
    (hx : 2 ≤ xs.length) (hy : 2 ≤ ys.length)
    (hvx : sampleVar xs = 0) (hvy : sampleVar ys = 0) :
    cohensD xs ys = 0 :=
  cohensD_eq_zero_of_pooledStd_eq_zero xs ys (pooledStd_eq_zero xs ys hvx hvy)

/-- C5 witness: the amended theorem applied to the concrete groups [1, 1]
and [4, 4]. -/
theorem c5_zero_variance_witness : cohensD [1, 1] [4, 4] = 0 :=
  c5_zero_variance_cohens_d_amended [1, 1] [4, 4] (by norm_num) (by norm_num)
    (sampleVar_pair 1) (sampleVar_pair 4)

/-! ### C7: 4xx other than 429 fails after one attempt; transient faults back off -/

/-- The exponential backoff schedule grows head-first: the wait before the
first retry followed by the schedule started one attempt later. -/
lemma backoff_waits (b : ℚ) (rc n : ℕ) :
    b ^ rc :: (List.range n).map (fun j => b ^ (rc + 1 + j))
      = (List.range (n + 1)).map (fun j => b ^ (rc + j)) := by
  rw [List.range_succ_eq_map, List.map_cons, List.map_map]
  congr 1
  apply List.map_congr_left
  intro j _
  simp only [Function.comp_apply]
  congr 1
  omega

/-- A persistently failing transport (always timing out, always refusing the
connection, or always answering one fixed 5xx status) is retried with
exponential backoff until max_retries is exhausted: starting at retry_count
rc with n = max_retries - rc retries left, the call makes n + 1 attempts,
sleeps base ^ rc, base ^ (rc+1), ..., and surfaces the underlying error. -/
lemma makeRequest_persistent (resp : ℕ → HttpOutcome) (mr : ℕ) (b rd : ℚ)
    (o : HttpOutcome) (e : RequestError) (ho : ∀ i, resp i = o)
    (hoe : (o = .timeout ∧ e = .timeout) ∨ (o = .connError ∧ e = .connError)
      ∨ (∃ c, 500 ≤ c ∧ o = .httpStatus c ∧ e = .httpStatus c)) :
    ∀ n rc, mr - rc = n → rc ≤ mr →
      makeRequest resp mr b rd rc
        = ⟨n + 1, (List.range n).map (fun j => b ^ (rc + j)), .error e⟩ := by
  intro n
  induction n with
  | zero =>
    intro rc hn hle
    have hrc : rc = mr := by omega
    subst hrc
    rw [makeRequest, ho]
    rcases hoe with ⟨h1, h2⟩ | ⟨h1, h2⟩ | ⟨c, hc, h1, h2⟩ <;> subst h1 <;> subst h2
    · simp
    · simp
    · have h429 : c ≠ 429 := by omega
      simp [h429, hc]
  | succ n ih =>
    intro rc hn hle
    have hlt : rc < mr := by omega
    have hrec := ih (rc + 1) (by omega) (by omega)
    rw [makeRequest, ho]
    rcases hoe with ⟨h1, h2⟩ | ⟨h1, h2⟩ | ⟨c, hc, h1, h2⟩ <;> subst h1 <;> subst h2
    · simp only [dif_pos hlt, hrec]
      rw [RequestTrace.mk.injEq]
      exact ⟨rfl, backoff_waits b rc n, rfl⟩
    · simp only [dif_pos hlt, hrec]
      rw [RequestTrace.mk.injEq]
      exact ⟨rfl, backoff_waits b rc n, rfl⟩
    · have h429 : c ≠ 429 := by omega
      simp only [if_neg h429, if_pos hc, dif_pos hlt, hrec]
      rw [RequestTrace.mk.injEq]
      exact ⟨rfl, backoff_waits b rc n, rfl⟩

/-- C7: a response with a 4xx status other than 429 (for example 401 or 404)
makes _make_request raise after exactly one attempt with no backoff sleep,
while persistent timeouts, connection errors and 5xx responses are retried
up to max_retries times with exponential sleeps base ^ 0, base ^ 1, ...
before each retry, the underlying failure surfacing after
max_retries + 1 attempts. -/
theorem c7_retry_policy (mr : ℕ) (b rd : ℚ) :
    (∀ (resp : ℕ → HttpOutcome) (c : ℕ), 400 ≤ c → c < 500 → c ≠ 429 →
        resp 0 = .httpStatus c →
        makeRequest resp mr b rd 0 = ⟨1, [], .error (.httpStatus c)⟩)
      ∧ (∀ resp : ℕ → HttpOutcome, (∀ i, resp i = .timeout) →
          makeRequest resp mr b rd 0
            = ⟨mr + 1, (List.range mr).map (fun j => b ^ j), .error .timeout⟩)
      ∧ (∀ resp : ℕ → HttpOutcome, (∀ i, resp i = .connError) →
          makeRequest resp mr b rd 0
            = ⟨mr + 1, (List.range mr).map (fun j => b ^ j), .error .connError⟩)
      ∧ (∀ (resp : ℕ → HttpOutcome) (c : ℕ), 500 ≤ c →
          (∀ i, resp i = .httpStatus c) →
          makeRequest resp mr b rd 0
            = ⟨mr + 1, (List.range mr).map (fun j => b ^ j),
                .error (.httpStatus c)⟩) := by
  refine ⟨?_, ?_, ?_, ?_⟩
  · intro resp c h400 h500 h429 h0
    rw [makeRequest, h0]
    have hno5 : ¬ 500 ≤ c := by omega
    simp [h429, hno5]
  · intro resp ho
    have h := makeRequest_persistent resp mr b rd .timeout .timeout ho
      (Or.inl ⟨rfl, rfl⟩) mr 0 (by omega) (by omega)
    simpa using h
  · intro resp ho
    have h := makeRequest_persistent resp mr b rd .connError .connError ho
      (Or.inr (Or.inl ⟨rfl, rfl⟩)) mr 0 (by omega) (by omega)
    simpa using h
  · intro resp c hc ho
    have h := makeRequest_persistent resp mr b rd (.httpStatus c) (.httpStatus c) ho
      (Or.inr (Or.inr ⟨c, hc, rfl, rfl⟩)) mr 0 (by omega) (by omega)
    simpa using h

/-! ### C9: retention cleanup deletes whole extractions beyond the newest N -/

/-- The descending timestamp list is a permutation-preserving reordering of
the distinct timestamps. -/
lemma mem_sortedTimestampsDesc (files : List RawFile) (ts : List Char) :
    ts ∈ sortedTimestampsDesc files ↔ ts ∈ extractionTimestamps files := by
  unfold sortedTimestampsDesc
  rw [List.mem_reverse]
  exact (List.perm_insertionSort _ _).mem_iff

/-- Sorting and reversing keep the number of distinct timestamps. -/
lemma length_sortedTimestampsDesc (files : List RawFile) :
    (sortedTimestampsDesc files).length = (extractionTimestamps files).length := by
  unfold sortedTimestampsDesc
  rw [List.length_reverse]
  exact (List.perm_insertionSort _ _).length_eq

/-- The timestamp list is sorted newest (largest) first. -/
lemma pairwise_ge_sortedTimestampsDesc (files : List RawFile) :
    (sortedTimestampsDesc files).Pairwise (fun a c => c ≤ a) := by
  unfold sortedTimestampsDesc
  rw [List.pairwise_reverse]
  exact List.sorted_insertionSort _ _

/-- C9: cleanup_old_extractions deletes exactly the data files whose embedded
YYYYMMDD_HHMMSS timestamp lies beyond the newest keepLastN timestamps of the
descending-sorted distinct timestamps; files sharing a timestamp are kept or
deleted together; every kept timestamp is at least as new as every deleted
one; and with at most keepLastN distinct timestamps nothing is deleted. -/
theorem c9_cleanup_retention (files : List RawFile) (keepLastN : ℕ) :
    (∀ f, f ∈ deletedFiles files keepLastN ↔
        f ∈ files ∧ isDataFile f = true ∧
          ∃ ts, extractTimestamp f = some ts ∧
            ts ∈ (sortedTimestampsDesc files).drop keepLastN)
      ∧ (∀ f g, f ∈ files → g ∈ files → isDataFile f = true → isDataFile g = true →
          extractTimestamp f = extractTimestamp g →
          (f ∈ deletedFiles files keepLastN ↔ g ∈ deletedFiles files keepLastN))
      ∧ (∀ a ∈ (sortedTimestampsDesc files).take keepLastN,
          ∀ c ∈ (sortedTimestampsDesc files).drop keepLastN, c ≤ a)
      ∧ ((extractionTimestamps files).length ≤ keepLastN →
          deletedFiles files keepLastN = []) := by
  have hchar : ∀ f, f ∈ deletedFiles files keepLastN ↔
      f ∈ files ∧ isDataFile f = true ∧
        ∃ ts, extractTimestamp f = some ts ∧
          ts ∈ (sortedTimestampsDesc files).drop keepLastN := by
    intro f
    unfold deletedFiles
    by_cases hle : (sortedTimestampsDesc files).length ≤ keepLastN
    · rw [if_pos hle]
      have hdrop : (sortedTimestampsDesc files).drop keepLastN = [] :=
        List.drop_eq_nil_of_le hle
      simp [hdrop]
    · rw [if_neg hle]
      rw [List.mem_filter, List.mem_filter]
      rcases hts : extractTimestamp f with _ | ts
      · simp [hts, and_assoc]
      · simp [hts, and_assoc]
  refine ⟨hchar, ?_, ?_, ?_⟩
  · intro f g hf hg hdf hdg hts
    rw [hchar f, hchar g, hts]
    simp [hf, hg, hdf, hdg]
  · intro a ha c hc
    have hp := pairwise_ge_sortedTimestampsDesc files
    rw [← List.take_append_drop keepLastN (sortedTimestampsDesc files),
      List.pairwise_append] at hp
    exact hp.2.2 a ha c hc
  · intro hle
    unfold deletedFiles
    rw [if_pos]
    rw [length_sortedTimestampsDesc]
    exact hle

/-! ### C1: pagination row count, ordering and request count -/

/-- Length of one fetched page. -/
lemma fetchSlice_length {α : Type} (server : List α) (top skip : ℕ) (ht : 1 ≤ top) :
    (fetchSlice server top skip).length = min top (server.length - skip) := by
  unfold fetchSlice
  rw [if_neg (by omega)]
  simp

/-- A page of positive size is the whole remainder when it comes back short. -/
lemma fetchSlice_short {α : Type} (server : List α) (top skip : ℕ) (ht : 1 ≤ top)
    (h : (fetchSlice server top skip).length < top) :
    fetchSlice server top skip = server.drop skip := by
  unfold fetchSlice
  rw [if_neg (by omega)]
  apply List.take_of_length_le
  rw [fetchSlice_length server top skip ht] at h
  simp only [List.length_drop]
  omega

/-- Without a truthy row cap every loop iteration asks for the batch size. -/
lemma rowsToFetch_uncapped (batch total : ℕ) (mx : Option ℕ)
    (hmx : mx = none ∨ mx = some 0) : rowsToFetch batch mx total = some batch := by
  rcases hmx with h | h <;> subst h <;> simp [rowsToFetch]

/-- With a positive row cap the loop breaks once the cap is reached and
otherwise asks for the lesser of the batch size and the remaining budget. -/
lemma rowsToFetch_cap (batch m total : ℕ) (hm : 1 ≤ m) (hb : 1 ≤ batch) :
    rowsToFetch batch (some m) total
      = if m ≤ total then none else some (min batch (m - total)) := by
  simp only [rowsToFetch]
  rw [if_pos (by omega : m ≠ 0)]
  by_cases hmt : m ≤ total
  · rw [if_pos hmt, if_pos (by omega : min (batch : ℤ) ((m : ℤ) - (total : ℤ)) ≤ 0)]
  · rw [if_neg hmt, if_neg (by omega : ¬ min (batch : ℤ) ((m : ℤ) - (total : ℤ)) ≤ 0)]
    simp only [Option.some.injEq]
    omega

/-- Without a cap the loop returns every server row from its start offset. -/
lemma go_data_uncapped {α : Type} (server : List α) (batch : ℕ) (hb : 1 ≤ batch)
    (mx : Option ℕ) (hmx : mx = none ∨ mx = some 0) :
    ∀ skip total, (getDataPaginatedGo server batch mx skip total).2 = server.drop skip := by
  suffices H : ∀ n skip total, server.length - skip ≤ n →
      (getDataPaginatedGo server batch mx skip total).2 = server.drop skip by
    intro skip total
    exact H (server.length - skip) skip total le_rfl
  intro n
  induction n with
  | zero =>
    intro skip total hn
    have hdrop : server.drop skip = [] := List.drop_eq_nil_of_le (by omega)
    have h0 : (fetchSlice server batch skip).length = 0 := by
      rw [fetchSlice_length server batch skip hb]
      omega
    rw [getDataPaginatedGo, rowsToFetch_uncapped batch total mx hmx]
    simp [h0, hdrop]
  | succ n ih =>
    intro skip total hn
    rw [getDataPaginatedGo, rowsToFetch_uncapped batch total mx hmx]
    by_cases h0 : (fetchSlice server batch skip).length = 0
    · have hdrop : server.drop skip = [] := by
        rw [fetchSlice_length server batch skip hb] at h0
        exact List.drop_eq_nil_of_le (by omega)
      simp [h0, hdrop]
    · by_cases hlt : (fetchSlice server batch skip).length < batch
      · have hball := fetchSlice_short server batch skip hb hlt
        simp only [if_neg h0, if_pos hlt]
        exact hball
      · have hfull : (fetchSlice server batch skip).length = batch := by
          rw [fetchSlice_length server batch skip hb] at hlt ⊢
          omega
        have hskiplt : skip < server.length := by
          rw [fetchSlice_length server batch skip hb] at h0
          omega
        have hrec := ih (skip + batch) (total + batch) (by omega)
        have hds : server.drop skip
            = fetchSlice server batch skip ++ server.drop (skip + batch) := by
          unfold fetchSlice
          rw [if_neg (by omega)]
          rw [show server.drop (skip + batch) = (server.drop skip).drop batch by
            rw [List.drop_drop]]
          exact (List.take_append_drop batch (server.drop skip)).symm
        simp only [if_neg h0, if_neg hlt]
        rw [hfull]
        simp only [hrec]
        exact hds.symm

/-- Without a cap the number of page requests is floor(N / P) + 1: the full
pages plus the final short or empty page that ends the loop. -/
lemma go_count_uncapped {α : Type} (server : List α) (batch : ℕ) (hb : 1 ≤ batch)
    (mx : Option ℕ) (hmx : mx = none ∨ mx = some 0) :
    ∀ skip total, (getDataPaginatedGo server batch mx skip total).1.length
      = (server.length - skip) / batch + 1 := by
  suffices H : ∀ n skip total, server.length - skip ≤ n →
      (getDataPaginatedGo server batch mx skip total).1.length
        = (server.length - skip) / batch + 1 by
    intro skip total
    exact H (server.length - skip) skip total le_rfl
  intro n
  induction n with
  | zero =>
    intro skip total hn
    have h0 : (fetchSlice server batch skip).length = 0 := by
      rw [fetchSlice_length server batch skip hb]
      omega
    rw [getDataPaginatedGo, rowsToFetch_uncapped batch total mx hmx]
    have hz : (server.length - skip) / batch = 0 := by
      apply Nat.div_eq_of_lt
      omega
    simp [h0, hz]
  | succ n ih =>
    intro skip total hn
    rw [getDataPaginatedGo, rowsToFetch_uncapped batch total mx hmx]
    by_cases h0 : (fetchSlice server batch skip).length = 0
    · have hz : (server.length - skip) / batch = 0 := by
        apply Nat.div_eq_of_lt
        rw [fetchSlice_length server batch skip hb] at h0
        omega
      simp [h0, hz]
    · by_cases hlt : (fetchSlice server batch skip).length < batch
      · have hz : (server.length - skip) / batch = 0 := by
          apply Nat.div_eq_of_lt
          rw [fetchSlice_length server batch skip hb] at hlt
          omega
        simp [h0, hlt, hz]
      · have hfull : (fetchSlice server batch skip).length = batch := by
          rw [fetchSlice_length server batch skip hb] at hlt ⊢
          omega
        have hble : batch ≤ server.length - skip := by
          rw [fetchSlice_length server batch skip hb] at hlt
          omega
        have hrec := ih (skip + batch) (total + batch) (by omega)
        simp only [if_neg h0, if_neg hlt]
        rw [hfull]
        simp only [List.length_cons, hrec]
        rw [Nat.div_eq_sub_div (show 0 < batch by omega) hble]
        have hnum : server.length - (skip + batch) = server.length - skip - batch := by
          omega
        rw [hnum]

/-- Every offset in the request log is at least the starting offset, and the
offsets are strictly increasing: each successful page advances the offset by
the page's size, which is positive whenever the loop continues. -/
lemma go_offsets {α : Type} (server : List α) (batch : ℕ) (mx : Option ℕ) :
    ∀ skip total,
      (((getDataPaginatedGo server batch mx skip total).1.map Prod.snd).Pairwise (· < ·))
      ∧ ∀ o ∈ (getDataPaginatedGo server batch mx skip total).1.map Prod.snd, skip ≤ o := by
  suffices H : ∀ n skip total, server.length - skip ≤ n →
      (((getDataPaginatedGo server batch mx skip total).1.map Prod.snd).Pairwise (· < ·))
      ∧ ∀ o ∈ (getDataPaginatedGo server batch mx skip total).1.map Prod.snd, skip ≤ o by
    intro skip total
    exact H (server.length - skip) skip total le_rfl
  intro n
  induction n with
  | zero =>
    intro skip total hn
    rw [getDataPaginatedGo]
    rcases hr : rowsToFetch batch mx total with _ | rtf
    · simp
    · by_cases h0 : (fetchSlice server rtf skip).length = 0
      · simp [h0]
      · have : (fetchSlice server rtf skip).length ≤ server.length - skip := by
          unfold fetchSlice
          split
          · simp
          · simp only [List.length_take, List.length_drop]
            omega
        omega
  | succ n ih =>
    intro skip total hn
    rw [getDataPaginatedGo]
    rcases hr : rowsToFetch batch mx total with _ | rtf
    · simp
    · by_cases h0 : (fetchSlice server rtf skip).length = 0
      · simp [h0]
      · by_cases hlt : (fetchSlice server rtf skip).length < rtf
        · simp [h0, hlt]
        · have hlen : (fetchSlice server rtf skip).length ≤ server.length - skip := by
            unfold fetchSlice
            split
            · simp
            · simp only [List.length_take, List.length_drop]
              omega
          have hpos : 1 ≤ (fetchSlice server rtf skip).length := by omega
          have hrec := ih (skip + (fetchSlice server rtf skip).length)
            (total + (fetchSlice server rtf skip).length) (by omega)
          simp only [if_neg h0, if_neg hlt]
          simp only [List.map_cons]
          constructor
          · rw [List.pairwise_cons]
            refine ⟨?_, hrec.1⟩
            intro o ho
            have := hrec.2 o ho
            omega
          · intro o ho
            rcases List.mem_cons.mp ho with h | h
            · omega
            · have := hrec.2 o h
              omega

/-- With a positive cap m the loop returns the first m server rows (all rows
when fewer are available): from state t it returns the remainder capped at
m - t. -/
lemma go_data_cap {α : Type} (server : List α) (batch m : ℕ) (hb : 1 ≤ batch)
    (hm : 1 ≤ m) :
    ∀ t, (getDataPaginatedGo server batch (some m) t t).2
      = (server.drop t).take (m - t) := by
  suffices H : ∀ n t, m - t ≤ n →
      (getDataPaginatedGo server batch (some m) t t).2
        = (server.drop t).take (m - t) by
    intro t
    exact H (m - t) t le_rfl
  intro n
  induction n with
  | zero =>
    intro t hn
    have hmt : m ≤ t := by omega
    rw [getDataPaginatedGo, rowsToFetch_cap batch m t hm hb, if_pos hmt]
    rw [show m - t = 0 by omega]
    simp
  | succ n ih =>
    intro t hn
    by_cases hmt : m ≤ t
    · rw [getDataPaginatedGo, rowsToFetch_cap batch m t hm hb, if_pos hmt]
      rw [show m - t = 0 by omega]
      simp
    · rw [getDataPaginatedGo, rowsToFetch_cap batch m t hm hb, if_neg hmt]
      have hrtf : 1 ≤ min batch (m - t) := by omega
      have hrle : min batch (m - t) ≤ m - t := by omega
      by_cases h0 : (fetchSlice server (min batch (m - t)) t).length = 0
      · have hdrop : server.drop t = [] := by
          rw [fetchSlice_length server _ t hrtf] at h0
          exact List.drop_eq_nil_of_le (by omega)
        simp [h0, hdrop]
      · by_cases hlt : (fetchSlice server (min batch (m - t)) t).length < min batch (m - t)
        · have hball := fetchSlice_short server _ t hrtf hlt
          have hdle : (server.drop t).length ≤ m - t := by
            rw [fetchSlice_length server _ t hrtf] at hlt
            simp only [List.length_drop]
            omega
          simp only [if_neg h0, if_pos hlt]
          rw [hball, List.take_of_length_le hdle]
        · have hfull : (fetchSlice server (min batch (m - t)) t).length
              = min batch (m - t) := by
            rw [fetchSlice_length server _ t hrtf] at hlt ⊢
            omega
          have hrec := ih (t + min batch (m - t)) (by omega)
          simp only [if_neg h0, if_neg hlt]
          rw [hfull]
          simp only [hrec]
          have hsplit : (server.drop t).take (m - t)
              = fetchSlice server (min batch (m - t)) t
                ++ (server.drop (t + min batch (m - t))).take (m - (t + min batch (m - t))) := by
            unfold fetchSlice
            rw [if_neg (by omega)]
            rw [show server.drop (t + min batch (m - t))
                = (server.drop t).drop (min batch (m - t)) by
              rw [List.drop_drop]]
            have htap := List.take_add (server.drop t) (min batch (m - t))
              (m - (t + min batch (m - t)))
            rw [show min batch (m - t) + (m - (t + min batch (m - t))) = m - t by
              omega] at htap
            exact htap
          exact hsplit.symm

/-- With a cap m that does not exceed the available rows, the request count is
the ceiling of the remaining budget over the page size: every page is full
and the loop stops exactly at the cap with no extra request. -/
lemma go_count_cap_le {α : Type} (server : List α) (batch m : ℕ) (hb : 1 ≤ batch)
    (hm : 1 ≤ m) (hmN : m ≤ server.length) :
    ∀ t, t ≤ m → (getDataPaginatedGo server batch (some m) t t).1.length
      = (m - t + batch - 1) / batch := by
  suffices H : ∀ n t, m - t ≤ n → t ≤ m →
      (getDataPaginatedGo server batch (some m) t t).1.length
        = (m - t + batch - 1) / batch by
    intro t ht
    exact H (m - t) t le_rfl ht
  intro n
  induction n with
  | zero =>
    intro t hn ht
    have hmt : m ≤ t := by omega
    rw [getDataPaginatedGo, rowsToFetch_cap batch m t hm hb, if_pos hmt]
    have hz : (m - t + batch - 1) / batch = 0 := by
      apply Nat.div_eq_of_lt
      omega
    simp [hz]
  | succ n ih =>
    intro t hn ht
    by_cases hmt : m ≤ t
    · rw [getDataPaginatedGo, rowsToFetch_cap batch m t hm hb, if_pos hmt]
      have hz : (m - t + batch - 1) / batch = 0 := by
        apply Nat.div_eq_of_lt
        omega
      simp [hz]
    · rw [getDataPaginatedGo, rowsToFetch_cap batch m t hm hb, if_neg hmt]
      have hrtf : 1 ≤ min batch (m - t) := by omega
      have hfull : (fetchSlice server (min batch (m - t)) t).length
          = min batch (m - t) := by
        rw [fetchSlice_length server _ t hrtf]
        omega
      have h0 : ¬ (fetchSlice server (min batch (m - t)) t).length = 0 := by
        rw [hfull]
        omega
      have hlt : ¬ (fetchSlice server (min batch (m - t)) t).length
          < min batch (m - t) := by
        rw [hfull]
        omega
      have hrec := ih (t + min batch (m - t)) (by omega) (by omega)
      simp only [if_neg h0, if_neg hlt]
      rw [hfull]
      simp only [List.length_cons, hrec]
      by_cases hcase : m - t ≤ batch
      · have h1 : min batch (m - t) = m - t := by omega
        rw [h1]
        have hz : (m - (t + (m - t)) + batch - 1) / batch = 0 := by
          apply Nat.div_eq_of_lt
          omega
        rw [hz]
        rw [Nat.div_eq_sub_div (show 0 < batch by omega)
          (show batch ≤ m - t + batch - 1 by omega)]
        rw [Nat.div_eq_of_lt (show m - t + batch - 1 - batch < batch by omega)]
      · have h1 : min batch (m - t) = batch := by omega
        rw [h1]
        rw [Nat.div_eq_sub_div (show 0 < batch by omega)
          (show batch ≤ m - t + batch - 1 by omega)]
        have hnum : m - (t + batch) + batch - 1 = m - t + batch - 1 - batch := by
          omega
        rw [hnum]

/-- With a cap exceeding the available rows the cap never bites: the request
count is that of the uncapped loop, floor((N - t) / P) + 1. -/
lemma go_count_cap_gt {α : Type} (server : List α) (batch m : ℕ) (hb : 1 ≤ batch)
    (hNm : server.length < m) :
    ∀ t, t ≤ server.length →
      (getDataPaginatedGo server batch (some m) t t).1.length
        = (server.length - t) / batch + 1 := by
  suffices H : ∀ n t, server.length - t ≤ n → t ≤ server.length →
      (getDataPaginatedGo server batch (some m) t t).1.length
        = (server.length - t) / batch + 1 by
    intro t ht
    exact H (server.length - t) t le_rfl ht
  intro n
  induction n with
  | zero =>
    intro t hn ht
    have hm : 1 ≤ m := by omega
    rw [getDataPaginatedGo, rowsToFetch_cap batch m t hm hb,
      if_neg (show ¬ m ≤ t by omega)]
    have hrtf : 1 ≤ min batch (m - t) := by omega
    have h0 : (fetchSlice server (min batch (m - t)) t).length = 0 := by
      rw [fetchSlice_length server _ t hrtf]
      omega
    have hz : (server.length - t) / batch = 0 := Nat.div_eq_of_lt (by omega)
    simp [h0, hz]
  | succ n ih =>
    intro t hn ht
    have hm : 1 ≤ m := by omega
    rw [getDataPaginatedGo, rowsToFetch_cap batch m t hm hb,
      if_neg (show ¬ m ≤ t by omega)]
    have hrtf : 1 ≤ min batch (m - t) := by omega
    by_cases h0 : (fetchSlice server (min batch (m - t)) t).length = 0
    · have hz : (server.length - t) / batch = 0 := by
        apply Nat.div_eq_of_lt
        rw [fetchSlice_length server _ t hrtf] at h0
        omega
      simp [h0, hz]
    · by_cases hlt : (fetchSlice server (min batch (m - t)) t).length
          < min batch (m - t)
      · have hz : (server.length - t) / batch = 0 := by
          apply Nat.div_eq_of_lt
          rw [fetchSlice_length server _ t hrtf] at hlt
          omega
        simp [h0, hlt, hz]
      · have hfull : (fetchSlice server (min batch (m - t)) t).length
            = min batch (m - t) := by
          rw [fetchSlice_length server _ t hrtf] at *
          omega
        have hrb : min batch (m - t) = batch := by
          rw [fetchSlice_length server _ t hrtf] at hlt
          omega
        have hble : batch ≤ server.length - t := by
          rw [fetchSlice_length server _ t hrtf] at hlt
          omega
        have hrec := ih (t + batch) (by omega) (by omega)
        simp only [if_neg h0, if_neg hlt]
        rw [hfull, hrb]
        simp only [List.length_cons, hrec]
        rw [Nat.div_eq_sub_div (show 0 < batch by omega) hble]
        have hnum : server.length - (t + batch) = server.length - t - batch := by
          omega
        rw [hnum]

/-- C1 counterexample: one available row, page size 1, no row cap. The loop
fetches one full page, then issues a second request that comes back empty,
so it makes 2 requests while the claim's ceil(min(N, max_rows)/P)
= ceil(1/1) = 1; the returned table still has the 1 available row. -/
theorem c1_request_count_counterexample :
    (get_data_paginated ([0] : List ℕ) 1 none).2.length = 1
      ∧ (get_data_paginated ([0] : List ℕ) 1 none).1.length = 2
      ∧ (get_data_paginated ([0] : List ℕ) 1 none).1.length ≠ (1 + 1 - 1) / 1 := by
  have hdata := go_data_uncapped ([0] : List ℕ) 1 (by omega) none (Or.inl rfl) 0 0
  have hcount := go_count_uncapped ([0] : List ℕ) 1 (by omega) none (Or.inl rfl) 0 0
  unfold get_data_paginated
  rw [hdata, hcount]
  norm_num

/-- C1 (amended): with page size P at least 1 and N rows available, the
returned table is exactly the first min(N, max_rows) server rows in server
order (all N rows when max_rows is not given), and pages are requested at
strictly increasing offsets. The number of page requests is
ceil(min(N, max_rows)/P) only when a positive max_rows at most N is given;
without a cap, or with a cap above N, the loop always issues one final
request beyond the full pages, making floor(N/P) + 1 requests. -/
theorem c1_pagination_amended {α : Type} (server : List α) (batch : ℕ)
    (hb : 1 ≤ batch) :
    ((get_data_paginated server batch none).2 = server
      ∧ (get_data_paginated server batch none).1.length
        = server.length / batch + 1
      ∧ ((get_data_paginated server batch none).1.map Prod.snd).Pairwise (· < ·))
    ∧ ∀ m, 1 ≤ m →
      ((get_data_paginated server batch (some m)).2 = server.take m
        ∧ (get_data_paginated server batch (some m)).2.length = min m server.length
        ∧ (get_data_paginated server batch (some m)).1.length
          = (if m ≤ server.length then (m + batch - 1) / batch
             else server.length / batch + 1)
        ∧ ((get_data_paginated server batch (some m)).1.map Prod.snd).Pairwise
            (· < ·)) := by
  unfold get_data_paginated
  refine ⟨⟨?_, ?_, ?_⟩, ?_⟩
  · rw [go_data_uncapped server batch hb none (Or.inl rfl) 0 0]
    exact List.drop_zero server
  · rw [go_count_uncapped server batch hb none (Or.inl rfl) 0 0, Nat.sub_zero]
  · exact (go_offsets server batch none 0 0).1
  · intro m hm
    have hdata := go_data_cap server batch m hb hm 0
    rw [List.drop_zero, Nat.sub_zero] at hdata
    refine ⟨hdata, ?_, ?_, (go_offsets server batch (some m) 0 0).1⟩
    · rw [hdata, List.length_take]
    · by_cases hle : m ≤ server.length
      · rw [if_pos hle, go_count_cap_le server batch m hb hm hle 0 (by omega),
          Nat.sub_zero]
      · rw [if_neg hle, go_count_cap_gt server batch m hb (by omega) 0 (by omega),
          Nat.sub_zero]

/-- C1 witness: three server rows, page size 2; without a cap all 3 rows come
back in 2 requests (floor(3/2) + 1); with cap 2 the first 2 rows come back
in ceil(2/2) = 1 request. -/
theorem c1_pagination_witness :
    ((get_data_paginated ([10, 11, 12] : List ℕ) 2 none).2 = [10, 11, 12]
      ∧ (get_data_paginated ([10, 11, 12] : List ℕ) 2 none).1.length
        = ([10, 11, 12] : List ℕ).length / 2 + 1
      ∧ ((get_data_paginated ([10, 11, 12] : List ℕ) 2 none).1.map Prod.snd).Pairwise
          (· < ·))
    ∧ ∀ m, 1 ≤ m →
      ((get_data_paginated ([10, 11, 12] : List ℕ) 2 (some m)).2
          = ([10, 11, 12] : List ℕ).take m
        ∧ (get_data_paginated ([10, 11, 12] : List ℕ) 2 (some m)).2.length
          = min m ([10, 11, 12] : List ℕ).length
        ∧ (get_data_paginated ([10, 11, 12] : List ℕ) 2 (some m)).1.length
          = (if m ≤ ([10, 11, 12] : List ℕ).length then (m + 2 - 1) / 2
             else ([10, 11, 12] : List ℕ).length / 2 + 1)
        ∧ ((get_data_paginated ([10, 11, 12] : List ℕ) 2 (some m)).1.map
            Prod.snd).Pairwise (· < ·)) :=
  c1_pagination_amended ([10, 11, 12] : List ℕ) 2 (by omega)

end DutchHousing
